import Mathlib

/-!
Shallow embedding of the `proyecto_prueba` massive_* orchestration scripts
(`massive_bowtie.py`, `massive_hisat2.py`, `massive_fastp.py`,
`massive_prefetch.py`, `massive_fastqc.py`, `massive_fasterqdump.py`).

File paths and captured text are modelled as `List Char` (Python `str`).
External tools are opaque: each script function takes a small environment
record giving the exit status / captured stdout / deletion behaviour that
the external world would produce, and returns the message the Python
function would return, the list of subprocess invocations it performed
(with the destination of each invocation's standard error), and the
filesystem effect (deleted files).
-/

/-- A file path / Python string, modelled as its list of characters. -/
abbrev PyStr := List Char

/-- Characters of a string literal. -/
def chars (s : String) : PyStr := s.data

/-- `os.path.join(dir, name)` for a relative `name`: the two parts joined
by the path separator. -/
def pathJoin (dir name : PyStr) : PyStr := dir ++ '/' :: name

/-- `os.path.basename`: the part of the path after the last separator. -/
def pyBasename (p : PyStr) : PyStr :=
  (p.reverse.takeWhile (fun c => c ≠ '/')).reverse

/-- Python `s.endswith(suf)`. -/
def pyEndsWith (s suf : PyStr) : Bool := suf.isSuffixOf s

/-- Python `s.startswith(pre)`. -/
def pyStartsWith (s pre : PyStr) : Bool := pre.isPrefixOf s

/-- Python `s.strip()`: remove leading and trailing whitespace. -/
def pyStrip (s : PyStr) : PyStr :=
  ((s.dropWhile Char.isWhitespace).reverse.dropWhile Char.isWhitespace).reverse

/-- Python string comparison (`<` on `str`): lexicographic on code points. -/
def pathLt : PyStr → PyStr → Bool
  | [], [] => false
  | [], _ :: _ => true
  | _ :: _, [] => false
  | a :: as, b :: bs => if a < b then true else if b < a then false else pathLt as bs

/-- Non-strict counterpart of `pathLt`. -/
def pathLe (a b : PyStr) : Prop := pathLt a b = true ∨ a = b

/-- The lexicographically smaller of two paths. -/
def pathMin (a b : PyStr) : PyStr := if pathLt b a then b else a

/-- The lexicographically larger of two paths. -/
def pathMax (a b : PyStr) : PyStr := if pathLt b a then a else b

/-- Python `sorted([a, b])` for a two-element list (timsort is stable:
it swaps exactly when the second element compares strictly below the
first), as used by `fastq1, fastq2 = sorted(fastq_files)` in
`massive_bowtie.py`, `massive_hisat2.py` and `massive_fastp.py`. -/
def sortPair (a b : PyStr) : PyStr × PyStr := if pathLt b a then (b, a) else (a, b)

/-- Decimal rendering of a thread count (`str(threads)`). -/
def natChars (n : Nat) : PyStr := (toString n).data

/-- Fuel-indexed worker for `pyReplace`. Every step consumes at least
one character of the subject (the match branch consumes `pat.length ≥ 1`
characters), so any fuel at least the subject's length — in particular
the canonical `s.length` — computes the full scan and the `0, _ :: _`
arm is never reached. -/
def pyReplaceFuel (pat rep : PyStr) : Nat → PyStr → PyStr
  | _, [] => []
  | 0, s => s
  | n + 1, c :: rest =>
    if 0 < pat.length ∧ pat.isPrefixOf (c :: rest) then
      rep ++ pyReplaceFuel pat rep n ((c :: rest).drop pat.length)
    else
      c :: pyReplaceFuel pat rep n rest

/-- Python `s.replace(pat, rep)`: replace every non-overlapping occurrence
of `pat`, scanning left to right. -/
def pyReplace (s pat rep : PyStr) : PyStr := pyReplaceFuel pat rep s.length s

/-- Where an invocation's standard error goes. -/
inductive StderrDest
  /-- `stderr=subprocess.PIPE`: captured into memory (and discarded). -/
  | pipe
  /-- `stderr=log` for the task's log handle from `open(log_file, "w")`,
  shared by the sequential commands of one task. -/
  | taskLog (path : PyStr)
  /-- `stderr=open(log_file, "a")`: a fresh append-mode open of the
  task's log file at this invocation. -/
  | appendLog (path : PyStr)
deriving DecidableEq

/-- Whether a standard-error destination is a log file (as opposed to a
captured pipe). -/
def StderrDest.goesToLog : StderrDest → Bool
  | .pipe => false
  | .taskLog _ => true
  | .appendLog _ => true

/-- One external command as the orchestrator runs it: the literal
argument vector, and where its standard error is sent. -/
structure Invocation where
  argv : List PyStr
  stderr : StderrDest
deriving DecidableEq

/-- `os.remove` loop `for f in files: os.remove(f)` inside a `try` block:
deletion stops at the first failing file (the raised `OSError` aborts the
loop); returns the successfully deleted files, tagged by whether the
loop finished. -/
def removeAll (removeFails : PyStr → Bool) : List PyStr → Except (List PyStr) (List PyStr)
  | [] => .ok []
  | f :: rest =>
    if removeFails f then .error []
    else
      match removeAll removeFails rest with
      | .ok ds => .ok (f :: ds)
      | .error ds => .error (f :: ds)

namespace MassiveBowtie

/-- `is_bowtie_output_empty` from `massive_bowtie.py`, on the
`splitlines()` view of the captured stdout: iterate the lines; a line
starting with `"@"` returns `False`; a line that is non-empty after
`strip()` returns `False`; if the loop finishes, return `True`. -/
def is_bowtie_output_empty : List PyStr → Bool
  | [] => true
  | line :: rest =>
    if pyStartsWith line (chars "@") then false
    else if ¬ (pyStrip line).isEmpty then false
    else is_bowtie_output_empty rest

/-- The bowtie argument vector built by `run_bowtie_and_process`
(lines 25–49): paired command for two files (after `sorted`), the
`--interleaved` command for one file, and `none` for the early-return
"No valid FASTQ files" case. -/
def bowtie_command (fastq_files : List PyStr) (index_path : PyStr) (threads : Nat) :
    Option (List PyStr) :=
  match fastq_files with
  | [a, b] =>
    let p := sortPair a b
    some [chars "bowtie", chars "-p", natChars threads, chars "-x", index_path,
      chars "-1", p.1, chars "-2", p.2, chars "-a", chars "--sam"]
  | [f] =>
    some [chars "bowtie", chars "-p", natChars threads, chars "-x", index_path,
      chars "--interleaved", f, chars "-a", chars "--sam"]
  | _ => none

/-- Behaviour of the external world for one `run_bowtie_and_process`
call: the captured bowtie stdout (as lines), the exit codes of the two
`samtools` steps, and which `os.remove` calls raise `OSError`. -/
structure BowtieEnv where
  bowtie_stdout : List PyStr
  sort_exit : Nat
  index_exit : Nat
  remove_fails : PyStr → Bool

/-- The message returned by `run_bowtie_and_process`, one constructor
per `return` statement of the Python function. -/
inductive BowtieMsg
  /-- `"No valid FASTQ files found for alignment in {dataset_dir}"` -/
  | noValidFastq (dir : PyStr)
  /-- `"No alignments found for {dataset_dir}. Skipping BAM generation."` -/
  | noAlignments (dir : PyStr)
  /-- `"Alignment completed for {dataset_dir}: {sorted_bam} and its index are available."` -/
  | completed (dir : PyStr) (bam : PyStr)
  /-- `"Error during processing in {dataset_dir}: {e}"` (`CalledProcessError`) -/
  | processError (dir : PyStr)
  /-- `"Error deleting files in {dataset_dir}: {e}"` (`OSError`) -/
  | deleteError (dir : PyStr)
deriving DecidableEq

/-- Result of one `run_bowtie_and_process` call: the returned message,
the subprocess invocations that actually ran, and the files deleted. -/
structure BowtieResult where
  message : BowtieMsg
  invocations : List Invocation
  deleted : List PyStr
deriving DecidableEq

/-- `run_bowtie_and_process` from `massive_bowtie.py`: derive the
dataset name, sorted-BAM and log paths; open the log with `open(log_file,
"w")` and run bowtie with `stderr=log` capturing stdout (its exit code is
not checked); if `is_bowtie_output_empty` holds, return the no-alignments
message; otherwise run `samtools sort` and `samtools index` (both
`check=True`, `stderr=log`); then, if `delete_fastq`, `os.remove` every
input file; `CalledProcessError` yields the processing-error message and
`OSError` the deletion-error message. -/
def run_bowtie_and_process (dataset_dir : PyStr) (fastq_files : List PyStr)
    (index_path : PyStr) (threads : Nat) (delete_fastq : Bool) (env : BowtieEnv) :
    BowtieResult :=
  let dataset_name := pyBasename dataset_dir
  let sorted_bam := pathJoin dataset_dir (dataset_name ++ chars "_sorted.bam")
  let log_file := pathJoin dataset_dir (dataset_name ++ chars "_bowtie.log")
  match bowtie_command fastq_files index_path threads with
  | none => ⟨.noValidFastq dataset_dir, [], []⟩
  | some cmd =>
    let bowtieInv : Invocation := ⟨cmd, .taskLog log_file⟩
    if is_bowtie_output_empty env.bowtie_stdout then
      ⟨.noAlignments dataset_dir, [bowtieInv], []⟩
    else
      let sortInv : Invocation :=
        ⟨[chars "samtools", chars "sort", chars "-@", natChars threads,
          chars "-o", sorted_bam], .taskLog log_file⟩
      if env.sort_exit ≠ 0 then ⟨.processError dataset_dir, [bowtieInv, sortInv], []⟩
      else
        let indexInv : Invocation :=
          ⟨[chars "samtools", chars "index", chars "-@", natChars (threads / 2),
            sorted_bam], .taskLog log_file⟩
        if env.index_exit ≠ 0 then
          ⟨.processError dataset_dir, [bowtieInv, sortInv, indexInv], []⟩
        else if delete_fastq then
          match removeAll env.remove_fails fastq_files with
          | .ok ds => ⟨.completed dataset_dir sorted_bam, [bowtieInv, sortInv, indexInv], ds⟩
          | .error ds => ⟨.deleteError dataset_dir, [bowtieInv, sortInv, indexInv], ds⟩
        else ⟨.completed dataset_dir sorted_bam, [bowtieInv, sortInv, indexInv], []⟩

end MassiveBowtie

namespace MassiveHisat2

/-- The hisat2 argument vector built by `run_hisat2_and_process`
(lines 14–35): the base command, the optional
`--known-splicesite-infile`, then `-1`/`-2` for two files (after
`sorted`) or `-U` for one; `none` for the early-return case. -/
def hisat2_command (fastq_files : List PyStr) (index_path : PyStr) (threads : Nat)
    (known_splicesite_infile : Option PyStr) : Option (List PyStr) :=
  let base := [chars "hisat2", chars "-x", index_path, chars "-S", chars "-",
    chars "-a", chars "-p", natChars threads] ++
    (match known_splicesite_infile with
     | some p => [chars "--known-splicesite-infile", p]
     | none => [])
  match fastq_files with
  | [a, b] =>
    let p := sortPair a b
    some (base ++ [chars "-1", p.1, chars "-2", p.2])
  | [f] => some (base ++ [chars "-U", f])
  | _ => none

/-- Behaviour of the external world for one `run_hisat2_and_process`
call. -/
structure Hisat2Env where
  hisat2_exit : Nat
  sort_exit : Nat
  index_exit : Nat
  remove_fails : PyStr → Bool

/-- The message returned by `run_hisat2_and_process`, one constructor
per `return` statement. -/
inductive Hisat2Msg
  /-- `"No valid FASTQ files found for alignment in {dataset_dir}"` -/
  | noValidFastq (dir : PyStr)
  /-- `"HISAT2 error in {dataset_dir}, see {log_file} for details."` -/
  | hisat2Error (dir : PyStr) (log : PyStr)
  /-- `"Alignment completed for {dataset_dir}: {sorted_bam}, index, and log file are available."` -/
  | completed (dir : PyStr) (bam : PyStr)
  /-- `"Error during processing in {dataset_dir}: {e}"` (`CalledProcessError`) -/
  | processError (dir : PyStr)
  /-- `"Error deleting files in {dataset_dir}: {e}"` (`OSError`) -/
  | deleteError (dir : PyStr)
deriving DecidableEq

/-- Result of one `run_hisat2_and_process` call. -/
structure Hisat2Result where
  message : Hisat2Msg
  invocations : List Invocation
  deleted : List PyStr
deriving DecidableEq

/-- `run_hisat2_and_process` from `massive_hisat2.py`: build the hisat2
command; open the log with `open(log_file, "w")`; `Popen` hisat2 with
`stderr=log` piping its stdout into `samtools sort` (`check=True`,
`stderr=log`); then check `hisat2_process.returncode`; then run
`samtools index` (`check=True`, `stderr=open(log_file, "a")`); then, if
`delete_fastq`, `os.remove` every input. `CalledProcessError` yields the
processing-error message, `OSError` the deletion-error message. -/
def run_hisat2_and_process (dataset_dir : PyStr) (fastq_files : List PyStr)
    (index_path : PyStr) (threads : Nat) (delete_fastq : Bool)
    (known_splicesite_infile : Option PyStr) (env : Hisat2Env) : Hisat2Result :=
  let dataset_name := pyBasename dataset_dir
  let sorted_bam := pathJoin dataset_dir (dataset_name ++ chars "_sorted.bam")
  let log_file := pathJoin dataset_dir (dataset_name ++ chars "_hisat2.log")
  match hisat2_command fastq_files index_path threads known_splicesite_infile with
  | none => ⟨.noValidFastq dataset_dir, [], []⟩
  | some cmd =>
    let hisat2Inv : Invocation := ⟨cmd, .taskLog log_file⟩
    let sortInv : Invocation :=
      ⟨[chars "samtools", chars "sort", chars "-@", natChars threads,
        chars "-o", sorted_bam], .taskLog log_file⟩
    if env.sort_exit ≠ 0 then ⟨.processError dataset_dir, [hisat2Inv, sortInv], []⟩
    else if env.hisat2_exit ≠ 0 then
      ⟨.hisat2Error dataset_dir log_file, [hisat2Inv, sortInv], []⟩
    else
      let indexInv : Invocation :=
        ⟨[chars "samtools", chars "index", chars "-@", natChars (threads / 2),
          sorted_bam], .appendLog log_file⟩
      if env.index_exit ≠ 0 then
        ⟨.processError dataset_dir, [hisat2Inv, sortInv, indexInv], []⟩
      else if delete_fastq then
        match removeAll env.remove_fails fastq_files with
        | .ok ds => ⟨.completed dataset_dir sorted_bam, [hisat2Inv, sortInv, indexInv], ds⟩
        | .error ds => ⟨.deleteError dataset_dir, [hisat2Inv, sortInv, indexInv], ds⟩
      else ⟨.completed dataset_dir sorted_bam, [hisat2Inv, sortInv, indexInv], []⟩

end MassiveHisat2

namespace MassiveFastp

/-- Behaviour of the external world for one `process_fastq` call. -/
structure FastpEnv where
  fastp_exit : Nat
  remove_fails : PyStr → Bool

/-- The message returned by `process_fastq`, one constructor per
`return` statement. -/
inductive FastpMsg
  /-- `"Processed paired-end FASTQ files in {dataset_dir}"` -/
  | processedPaired (dir : PyStr)
  /-- `"Processed single-end FASTQ file in {dataset_dir}"` -/
  | processedSingle (dir : PyStr)
  /-- `"No valid FASTQ files found in {dataset_dir}"` -/
  | noValidFastq (dir : PyStr)
  /-- `"Error processing FASTQ files in {dataset_dir}: {e}"` (`CalledProcessError`) -/
  | errorProcessing (dir : PyStr)
deriving DecidableEq

/-- Result of one `process_fastq` call: the returned message, the fastp
invocations, the computed `_clean` output names, the simulated
filesystem after the `finally` block, the files it deleted, and the
files whose deletion failed (whose error is only printed to the
console). -/
structure FastpResult where
  message : FastpMsg
  invocations : List Invocation
  outputs : List PyStr
  fs : List PyStr
  deleted : List PyStr
  warnings : List PyStr
deriving DecidableEq

/-- Remove a path from the simulated filesystem (`os.remove`). -/
def fsRemove (fs : List PyStr) (p : PyStr) : List PyStr := fs.filter (fun q => q ≠ p)

/-- The `finally` deletion loop of `process_fastq`: each `os.remove` is
wrapped in its own `try`, a failure prints an error and the loop
continues. Returns the filesystem, the deleted files and the failed
files. -/
def fastp_cleanup (removeFails : PyStr → Bool) :
    List PyStr → List PyStr → List PyStr × List PyStr × List PyStr
  | fs, [] => (fs, [], [])
  | fs, f :: rest =>
    if removeFails f then
      let r := fastp_cleanup removeFails fs rest
      (r.1, r.2.1, f :: r.2.2)
    else
      let r := fastp_cleanup removeFails (fsRemove fs f) rest
      (r.1, f :: r.2.1, r.2.2)

/-- The `_clean` output path of one input: `os.path.join(dataset_dir,
os.path.basename(f).replace(".fastq", "_clean.fastq"))`. -/
def clean_output (dataset_dir f : PyStr) : PyStr :=
  pathJoin dataset_dir (pyReplace (pyBasename f) (chars ".fastq") (chars "_clean.fastq"))

/-- The fastp argument vector of `process_fastq`: paired shape
(lines 15–29) after `sorted`, or single shape (lines 36–48);
`stdout=subprocess.PIPE, stderr=subprocess.PIPE` in both. -/
def fastp_command (dataset_dir : PyStr) (fastq_files : List PyStr) (threads : Nat) :
    Option (List PyStr) :=
  match fastq_files with
  | [a, b] =>
    let p := sortPair a b
    some [chars "fastp", chars "-i", p.1, chars "-I", p.2,
      chars "-o", clean_output dataset_dir p.1, chars "-O", clean_output dataset_dir p.2,
      chars "-h", pathJoin dataset_dir (chars "fastp_report.html"),
      chars "-j", pathJoin dataset_dir (chars "fastp_report.json"),
      chars "-w", natChars threads]
  | [f] =>
    some [chars "fastp", chars "-i", f, chars "-o", clean_output dataset_dir f,
      chars "-h", pathJoin dataset_dir (chars "fastp_report.html"),
      chars "-j", pathJoin dataset_dir (chars "fastp_report.json"),
      chars "-w", natChars threads]
  | _ => none

/-- `process_fastq` from `massive_fastp.py`: for two files, sort them and
run the paired fastp command (`check=True`, both streams piped); for one
file the single command; otherwise return the no-valid-files message.
`processed_files` is extended with the *original* inputs only after a
successful run, so on `CalledProcessError` the `finally` block deletes
nothing; on success with `delete_original` it deletes each original,
catching and printing (not returning) any per-file deletion error. -/
def process_fastq (dataset_dir : PyStr) (fastq_files : List PyStr)
    (delete_original : Bool) (threads : Nat) (env : FastpEnv) (fs : List PyStr) :
    FastpResult :=
  match fastp_command dataset_dir fastq_files threads with
  | none => ⟨.noValidFastq dataset_dir, [], [], fs, [], []⟩
  | some cmd =>
    let inv : Invocation := ⟨cmd, .pipe⟩
    let processed_files : List PyStr :=
      match fastq_files with
      | [a, b] => [(sortPair a b).1, (sortPair a b).2]
      | l => l
    let outs : List PyStr := processed_files.map (clean_output dataset_dir)
    if env.fastp_exit ≠ 0 then
      -- CalledProcessError before `processed_files` is extended: the
      -- `finally` block sees an empty list and deletes nothing.
      ⟨.errorProcessing dataset_dir, [inv], outs, fs, [], []⟩
    else
      let msg : FastpMsg :=
        match fastq_files with
        | [_, _] => .processedPaired dataset_dir
        | _ => .processedSingle dataset_dir
      if delete_original then
        let r := fastp_cleanup env.remove_fails fs processed_files
        ⟨msg, [inv], outs, r.1, r.2.1, r.2.2⟩
      else ⟨msg, [inv], outs, fs, [], []⟩

end MassiveFastp

namespace MassivePrefetch

/-- The `prefetch` invocation of `download_sra` in `massive_prefetch.py`:
`stdout=subprocess.PIPE, stderr=subprocess.PIPE`. -/
def download_sra_invocation (sra_id output_dir : PyStr) : Invocation :=
  ⟨[chars "prefetch", sra_id, chars "-O", output_dir, chars "-C", chars "yes",
    chars "-X", chars "100G"], .pipe⟩

end MassivePrefetch

/-!
The dispatch idiom shared by all six scripts
(`run_bowtie_concurrently`, `run_hisat2_concurrently`,
`process_fastq_concurrently`, `download_sra_concurrently`,
`run_fastqc_concurrently`, `process_sra_concurrently`):
submit one future per task, then iterate `as_completed` and for each
future append `future.result()`, or — if the task's execution raised —
append `f"Error processing {key}: {e}"`.
-/

/-- What one task's execution did: returned a message, or raised. -/
abbrev TaskExec := Except String String

/-- The per-future collection step of the `as_completed` loop: the
`try/except` boundary that turns a raised exception into an error
message instead of re-raising it. -/
def futureOutcome (key : String) (exec : TaskExec) : String :=
  match exec with
  | .ok msg => msg
  | .error e => "Error processing " ++ key ++ ": " ++ e

/-- The whole `as_completed` loop: the submitted tasks are consumed in
completion order (an arbitrary permutation of submission order), one
outcome appended per future. -/
def collect_results (completed : List (String × TaskExec)) : List String :=
  completed.map (fun t => futureOutcome t.1 t.2)

/-!
Bounded worker pool. The `max_workers` bound itself is enforced by
Python's `concurrent.futures.ThreadPoolExecutor`, which is standard
library code, not part of this repository; the scripts only configure it
and collect the results. It is modelled here from the spec as a
small-step machine.
-/

/-- Modelled from the spec: the state of the worker pool driving one
batch — tasks not yet started, tasks currently running, and outcomes
already collected. The pool itself (`ThreadPoolExecutor`) is Python
standard-library code outside `src/`. -/
structure DispatchState (α : Type) where
  pending : List α
  running : List α
  done : List String

/-- Modelled from the spec: one scheduling step of a pool with
`capacity` workers. A pending task may start only while fewer than
`capacity` tasks are running; a running task may finish, contributing
exactly one outcome. -/
inductive DispatchStep (capacity : Nat) (out : α → String) :
    DispatchState α → DispatchState α → Prop
  | start (t : α) (p r : List α) (d : List String) :
      r.length < capacity →
      DispatchStep capacity out ⟨t :: p, r, d⟩ ⟨p, t :: r, d⟩
  | finish (t : α) (p r₁ r₂ : List α) (d : List String) :
      DispatchStep capacity out ⟨p, r₁ ++ t :: r₂, d⟩ ⟨p, r₁ ++ r₂, out t :: d⟩

/-- The initial state of a batch: everything pending. -/
def dispatchInit (tasks : List α) : DispatchState α := ⟨tasks, [], []⟩

/-- States the pool can reach from the initial state. -/
def DispatchReachable (capacity : Nat) (out : α → String) (tasks : List α)
    (s : DispatchState α) : Prop :=
  Relation.ReflTransGen (DispatchStep capacity out) (dispatchInit tasks) s

/-!
Dataset discovery: the `os.walk` loop shared by the `main` functions,
e.g. `massive_fastp.py` lines 109–113 (suffix `".fastq"`) and
`massive_bowtie.py` lines 138–142 (suffix `"_clean.fastq"`). The walk
is modelled as the list of `(root, files)` pairs `os.walk` yields, each
real directory appearing once.
-/

/-- The discovery loop: for every walked directory keep
`[os.path.join(root, f) for f in files if f.endswith(suf)]`, and record
the directory in the mapping only when that list is non-empty. -/
def collect_dataset_dirs (suf : PyStr) :
    List (PyStr × List PyStr) → List (PyStr × List PyStr)
  | [] => []
  | (root, files) :: rest =>
    let fastq_files := (files.filter (fun f => pyEndsWith f suf)).map
      (fun f => pathJoin root f)
    if fastq_files.isEmpty then collect_dataset_dirs suf rest
    else (root, fastq_files) :: collect_dataset_dirs suf rest


/-! Helper lemmas about the lexicographic path order. -/

theorem pathLt_asymm : ∀ {a b : PyStr}, pathLt a b = true → pathLt b a = true → False
  | [], [], h1, _ => by simp [pathLt] at h1
  | [], _ :: _, _, h2 => by simp [pathLt] at h2
  | _ :: _, [], h1, _ => by simp [pathLt] at h1
  | x :: as, y :: bs, h1, h2 => by
    by_cases hxy : x < y
    · have hyx : ¬ y < x := lt_asymm hxy
      simp [pathLt, hxy, hyx] at h2
    · by_cases hyx : y < x
      · simp [pathLt, hxy, hyx] at h1
      · simp [pathLt, hxy, hyx] at h1 h2
        exact pathLt_asymm h1 h2

theorem pathLt_conn : ∀ {a b : PyStr}, pathLt a b = false → pathLt b a = false → a = b
  | [], [], _, _ => rfl
  | [], _ :: _, h1, _ => by simp [pathLt] at h1
  | _ :: _, [], _, h2 => by simp [pathLt] at h2
  | x :: as, y :: bs, h1, h2 => by
    by_cases hxy : x < y
    · simp [pathLt, hxy] at h1
    · by_cases hyx : y < x
      · simp [pathLt, hxy, hyx] at h2
      · simp [pathLt, hxy, hyx] at h1 h2
        have hxe : x = y := le_antisymm (not_lt.mp hyx) (not_lt.mp hxy)
        rw [hxe, pathLt_conn h1 h2]

theorem sortPair_eq (a b : PyStr) : sortPair a b = (pathMin a b, pathMax a b) := by
  unfold sortPair pathMin pathMax
  split <;> rfl

theorem sortPair_swap (a b : PyStr) : sortPair b a = sortPair a b := by
  unfold sortPair
  by_cases hab : pathLt a b = true
  · have hba : pathLt b a = false := by
      cases h : pathLt b a
      · rfl
      · exact absurd (pathLt_asymm hab h) (fun f => f)
    simp [hab, hba]
  · cases h : pathLt b a
    · have := pathLt_conn (Bool.of_not_eq_true hab) h
      simp [hab, h, this]
    · simp [hab, h]

theorem pathLe_min_max (a b : PyStr) : pathLe (pathMin a b) (pathMax a b) := by
  unfold pathMin pathMax pathLe
  cases h : pathLt b a
  · simp only [h, Bool.false_eq_true, if_false]
    cases h2 : pathLt a b
    · exact .inr (pathLt_conn h2 h)
    · exact .inl rfl
  · simp [h]

/-- C1: the claim says a captured alignment output in which every line is
a header line (first character `'@'`) or blank must classify as empty,
with sort/index skipped and a completed-with-no-records outcome. The
code does the opposite: `is_bowtie_output_empty` returns `False` as soon
as it sees a line starting with `'@'`, so a header-only output (three
`'@'` lines) is classified non-empty, `samtools sort` and
`samtools index` both run, and the task returns the ordinary completed
message instead of the no-records one. -/
theorem C1_header_only_output_not_classified_empty :
    MassiveBowtie.is_bowtie_output_empty
      [chars "@HD", chars "@SQ", chars "@PG"] = false
  ∧ (MassiveBowtie.run_bowtie_and_process (chars "/data/ds1")
      [chars "/data/ds1/a_1_clean.fastq", chars "/data/ds1/a_2_clean.fastq"]
      (chars "/idx/ref") 4 false
      ⟨[chars "@HD", chars "@SQ", chars "@PG"], 0, 0, fun _ => false⟩).invocations.length = 3
  ∧ (MassiveBowtie.run_bowtie_and_process (chars "/data/ds1")
      [chars "/data/ds1/a_1_clean.fastq", chars "/data/ds1/a_2_clean.fastq"]
      (chars "/idx/ref") 4 false
      ⟨[chars "@HD", chars "@SQ", chars "@PG"], 0, 0, fun _ => false⟩).message
      ≠ MassiveBowtie.BowtieMsg.noAlignments (chars "/data/ds1")
  ∧ (MassiveBowtie.run_bowtie_and_process (chars "/data/ds1")
      [chars "/data/ds1/a_1_clean.fastq", chars "/data/ds1/a_2_clean.fastq"]
      (chars "/idx/ref") 4 false
      ⟨[chars "@HD", chars "@SQ", chars "@PG"], 0, 0, fun _ => false⟩).message
      = MassiveBowtie.BowtieMsg.completed (chars "/data/ds1")
          (pathJoin (chars "/data/ds1") (chars "ds1_sorted.bam")) := by
  refine ⟨rfl, rfl, ?_, rfl⟩
  decide

/-- C2: the `as_completed` collection loop produces exactly one outcome
per submitted task, whatever order the futures complete in and even when
some task's execution raised — a raised exception is converted at the
per-task boundary into an error-message outcome, so a failing task
neither aborts the batch nor loses sibling outcomes. Stated over an
arbitrary completion order (any permutation of the submitted tasks). -/
theorem C2_one_outcome_per_task (tasks completed : List (String × TaskExec))
    (h : completed.Perm tasks) :
    (collect_results completed).length = tasks.length
  ∧ (collect_results completed).Perm
      (tasks.map (fun t => futureOutcome t.1 t.2)) := by
  constructor
  · simpa [collect_results] using h.length_eq
  · simpa [collect_results] using h.map (fun t => futureOutcome t.1 t.2)

/-- Witness for C2: a batch of two tasks, one of which raises, collected
in reverse completion order, still yields exactly the two expected
outcomes. -/
theorem C2_one_outcome_per_task_witness :
    (collect_results [("/data/ds2", Except.error "boom"),
        ("/data/ds1", Except.ok "done")]).length
      = ([("/data/ds1", Except.ok "done"),
          ("/data/ds2", (Except.error "boom" : TaskExec))] : List (String × TaskExec)).length
  ∧ (collect_results [("/data/ds2", Except.error "boom"),
        ("/data/ds1", Except.ok "done")]).Perm
      (([("/data/ds1", Except.ok "done"),
          ("/data/ds2", (Except.error "boom" : TaskExec))] : List (String × TaskExec)).map
        (fun t => futureOutcome t.1 t.2)) :=
  C2_one_outcome_per_task
    [("/data/ds1", Except.ok "done"), ("/data/ds2", Except.error "boom")]
    [("/data/ds2", Except.error "boom"), ("/data/ds1", Except.ok "done")]
    (List.Perm.swap ("/data/ds1", Except.ok "done")
      ("/data/ds2", Except.error "boom") [])

/-- C3: for a dataset with exactly two input files, each paired command
builder (bowtie align, hisat2 align, fastp trim) places the
lexicographically smaller path in the file-1 argument position and the
larger in the file-2 position, and the built command is the same
whichever order discovery listed the two files in. -/
theorem C3_pairing_deterministic (a b dataset_dir index_path : PyStr) (threads : Nat)
    (ss : Option PyStr) :
    MassiveBowtie.bowtie_command [a, b] index_path threads
      = MassiveBowtie.bowtie_command [b, a] index_path threads
  ∧ MassiveBowtie.bowtie_command [a, b] index_path threads
      = some [chars "bowtie", chars "-p", natChars threads, chars "-x", index_path,
          chars "-1", pathMin a b, chars "-2", pathMax a b, chars "-a", chars "--sam"]
  ∧ MassiveHisat2.hisat2_command [a, b] index_path threads ss
      = MassiveHisat2.hisat2_command [b, a] index_path threads ss
  ∧ MassiveHisat2.hisat2_command [a, b] index_path threads ss
      = some ([chars "hisat2", chars "-x", index_path, chars "-S", chars "-",
          chars "-a", chars "-p", natChars threads] ++
          (match ss with
           | some p => [chars "--known-splicesite-infile", p]
           | none => []) ++
          [chars "-1", pathMin a b, chars "-2", pathMax a b])
  ∧ MassiveFastp.fastp_command dataset_dir [a, b] threads
      = MassiveFastp.fastp_command dataset_dir [b, a] threads
  ∧ MassiveFastp.fastp_command dataset_dir [a, b] threads
      = some [chars "fastp", chars "-i", pathMin a b, chars "-I", pathMax a b,
          chars "-o", MassiveFastp.clean_output dataset_dir (pathMin a b),
          chars "-O", MassiveFastp.clean_output dataset_dir (pathMax a b),
          chars "-h", pathJoin dataset_dir (chars "fastp_report.html"),
          chars "-j", pathJoin dataset_dir (chars "fastp_report.json"),
          chars "-w", natChars threads]
  ∧ pathLe (pathMin a b) (pathMax a b) := by
  refine ⟨?_, ?_, ?_, ?_, ?_, ?_, pathLe_min_max a b⟩
  · simp [MassiveBowtie.bowtie_command, sortPair_swap]
  · simp [MassiveBowtie.bowtie_command, sortPair_eq]
  · simp [MassiveHisat2.hisat2_command, sortPair_swap]
  · simp [MassiveHisat2.hisat2_command, sortPair_eq]
  · simp [MassiveFastp.fastp_command, sortPair_swap]
  · simp [MassiveFastp.fastp_command, sortPair_eq]

/-! Standard-error destinations (C4). -/

theorem bowtie_stderr_taskLog (dataset_dir : PyStr) (fastq_files : List PyStr)
    (index_path : PyStr) (threads : Nat) (delete_fastq : Bool)
    (benv : MassiveBowtie.BowtieEnv) :
    ∀ inv ∈ (MassiveBowtie.run_bowtie_and_process dataset_dir fastq_files index_path
        threads delete_fastq benv).invocations,
      inv.stderr = .taskLog (pathJoin dataset_dir
        (pyBasename dataset_dir ++ chars "_bowtie.log")) := by
  intro inv hinv
  unfold MassiveBowtie.run_bowtie_and_process at hinv
  rcases hcmd : MassiveBowtie.bowtie_command fastq_files index_path threads with _ | cmd <;>
    rw [hcmd] at hinv
  · simp at hinv
  · simp only at hinv
    split at hinv
    · simp at hinv
      simp [hinv]
    · split at hinv
      · simp at hinv
        rcases hinv with rfl | rfl <;> rfl
      · split at hinv
        · simp at hinv
          rcases hinv with rfl | rfl | rfl <;> rfl
        · split at hinv
          · split at hinv <;>
            · simp at hinv
              rcases hinv with rfl | rfl | rfl <;> rfl
          · simp at hinv
            rcases hinv with rfl | rfl | rfl <;> rfl

theorem hisat2_stderr_log (dataset_dir : PyStr) (fastq_files : List PyStr)
    (index_path : PyStr) (threads : Nat) (delete_fastq : Bool) (ss : Option PyStr)
    (henv : MassiveHisat2.Hisat2Env) :
    ∀ inv ∈ (MassiveHisat2.run_hisat2_and_process dataset_dir fastq_files index_path
        threads delete_fastq ss henv).invocations,
      inv.stderr = .taskLog (pathJoin dataset_dir
          (pyBasename dataset_dir ++ chars "_hisat2.log"))
      ∨ inv.stderr = .appendLog (pathJoin dataset_dir
          (pyBasename dataset_dir ++ chars "_hisat2.log")) := by
  intro inv hinv
  unfold MassiveHisat2.run_hisat2_and_process at hinv
  rcases hcmd : MassiveHisat2.hisat2_command fastq_files index_path threads ss with _ | cmd <;>
    rw [hcmd] at hinv
  · simp at hinv
  · simp only at hinv
    split at hinv
    · simp at hinv
      rcases hinv with rfl | rfl <;> simp
    · split at hinv
      · simp at hinv
        rcases hinv with rfl | rfl <;> simp
      · split at hinv
        · simp at hinv
          rcases hinv with rfl | rfl | rfl <;> simp
        · split at hinv
          · split at hinv <;>
            · simp at hinv
              rcases hinv with rfl | rfl | rfl <;> simp
          · simp at hinv
            rcases hinv with rfl | rfl | rfl <;> simp

theorem fastp_stderr_pipe (dataset_dir : PyStr) (fastq_files : List PyStr)
    (delete_original : Bool) (threads : Nat) (denv : MassiveFastp.FastpEnv)
    (fs : List PyStr) :
    ∀ inv ∈ (MassiveFastp.process_fastq dataset_dir fastq_files delete_original
        threads denv fs).invocations,
      inv.stderr = .pipe := by
  intro inv hinv
  unfold MassiveFastp.process_fastq at hinv
  rcases hcmd : MassiveFastp.fastp_command dataset_dir fastq_files threads with _ | cmd <;>
    rw [hcmd] at hinv
  · simp at hinv
  · simp only at hinv
    split at hinv
    · simp at hinv
      simp [hinv]
    · split at hinv <;>
      · simp at hinv
        simp [hinv]

/-- C4 counterexample: the claim quantifies over *every* external command
the orchestrator runs, but the trim stage's fastp invocation sends its
standard error to a captured pipe (`stderr=subprocess.PIPE`), not to a
per-dataset log file. -/
theorem C4_counterexample_fastp_stderr_is_pipe :
    ((MassiveFastp.process_fastq (chars "/data/ds1") [chars "/data/ds1/a.fastq"]
        false 4 ⟨0, fun _ => false⟩ [chars "/data/ds1/a.fastq"]).invocations.all
      (fun i => i.stderr.goesToLog)) = false := rfl

/-- C4 amended: only the alignment scripts log standard error. Every
command run by a bowtie task writes stderr to the task's shared
per-dataset log handle (`open(log_file, "w")` once per task, so the
task's sequential commands accumulate in that one file); every command
run by a hisat2 task writes stderr to the same per-dataset log path
(shared handle for align+sort, append-mode reopen for index); the trim
(fastp) and download (prefetch) commands instead capture stderr into a
pipe and the text is discarded. -/
theorem C4_amended_stderr_destinations (dataset_dir : PyStr) (fastq_files : List PyStr)
    (index_path : PyStr) (threads : Nat) (delete_fastq delete_original : Bool)
    (ss : Option PyStr) (benv : MassiveBowtie.BowtieEnv)
    (henv : MassiveHisat2.Hisat2Env) (denv : MassiveFastp.FastpEnv)
    (fs : List PyStr) (sra_id output_dir : PyStr) :
    (∀ inv ∈ (MassiveBowtie.run_bowtie_and_process dataset_dir fastq_files index_path
        threads delete_fastq benv).invocations,
      inv.stderr = .taskLog (pathJoin dataset_dir
        (pyBasename dataset_dir ++ chars "_bowtie.log")))
  ∧ (∀ inv ∈ (MassiveHisat2.run_hisat2_and_process dataset_dir fastq_files index_path
        threads delete_fastq ss henv).invocations,
      inv.stderr = .taskLog (pathJoin dataset_dir
          (pyBasename dataset_dir ++ chars "_hisat2.log"))
      ∨ inv.stderr = .appendLog (pathJoin dataset_dir
          (pyBasename dataset_dir ++ chars "_hisat2.log")))
  ∧ (∀ inv ∈ (MassiveFastp.process_fastq dataset_dir fastq_files delete_original
        threads denv fs).invocations,
      inv.stderr = .pipe)
  ∧ (MassivePrefetch.download_sra_invocation sra_id output_dir).stderr = .pipe :=
  ⟨bowtie_stderr_taskLog dataset_dir fastq_files index_path threads delete_fastq benv,
   hisat2_stderr_log dataset_dir fastq_files index_path threads delete_fastq ss henv,
   fastp_stderr_pipe dataset_dir fastq_files delete_original threads denv fs,
   rfl⟩

/-! Post-success cleanup failure (C5). -/

theorem fastp_cleanup_warns (rf : PyStr → Bool) :
    ∀ (files fs : List PyStr) (f : PyStr), f ∈ files → rf f = true →
      f ∈ (MassiveFastp.fastp_cleanup rf fs files).2.2 := by
  intro files
  induction files with
  | nil => simp
  | cons g rest ih =>
    intro fs f hf hrf
    rcases List.mem_cons.mp hf with rfl | hmem
    · simp [MassiveFastp.fastp_cleanup, hrf]
    · cases hg : rf g <;> simp [MassiveFastp.fastp_cleanup, hg]
      · exact ih _ f hmem hrf
      · exact .inr (ih _ f hmem hrf)

/-- C5 counterexample: a bowtie task in which alignment, sort and index
all succeed but deleting the first input file fails. The claim says the
prior completed result must survive with the failure as a warning annex;
the code instead returns the deletion-error message, replacing the
completed outcome. -/
theorem C5_counterexample_bowtie_delete_failure_downgrades :
    (MassiveBowtie.run_bowtie_and_process (chars "/data/ds1")
        [chars "/data/ds1/a_1_clean.fastq", chars "/data/ds1/a_2_clean.fastq"]
        (chars "/idx/ref") 4 true
        ⟨[chars "r1 0 chr1 10"], 0, 0,
          fun p => p == chars "/data/ds1/a_1_clean.fastq"⟩).message
      = MassiveBowtie.BowtieMsg.deleteError (chars "/data/ds1")
  ∧ (MassiveBowtie.run_bowtie_and_process (chars "/data/ds1")
        [chars "/data/ds1/a_1_clean.fastq", chars "/data/ds1/a_2_clean.fastq"]
        (chars "/idx/ref") 4 true
        ⟨[chars "r1 0 chr1 10"], 0, 0,
          fun p => p == chars "/data/ds1/a_1_clean.fastq"⟩).message
      ≠ MassiveBowtie.BowtieMsg.completed (chars "/data/ds1")
          (pathJoin (chars "/data/ds1") (chars "ds1_sorted.bam")) := by
  refine ⟨rfl, ?_⟩
  decide

/-- C5 amended: the two cleanup styles differ by stage. For a trim task
(`process_fastq`) a post-success deletion failure is caught inside the
`finally` loop: the outcome message stays the processed message, and the
failing file is only surfaced as a console warning. For an alignment
task (`run_bowtie_and_process`, `run_hisat2_and_process`) a deletion
failure raises `OSError` out of the success path, and the outcome
message becomes the deletion-error message instead of the completed
one — a downgrade, not a warning annex. -/
theorem C5_amended_cleanup_failure_by_stage
    (dataset_dir a b index_path : PyStr) (threads : Nat)
    (denv : MassiveFastp.FastpEnv) (fs bfiles hfiles cmd hcmd ds ds₂ : List PyStr)
    (benv : MassiveBowtie.BowtieEnv) (henv : MassiveHisat2.Hisat2Env)
    (ss : Option PyStr)
    (hfp : denv.fastp_exit = 0)
    (hbe : MassiveBowtie.is_bowtie_output_empty benv.bowtie_stdout = false)
    (hbs : benv.sort_exit = 0) (hbi : benv.index_exit = 0)
    (hbc : MassiveBowtie.bowtie_command bfiles index_path threads = some cmd)
    (hbr : removeAll benv.remove_fails bfiles = .error ds)
    (hhs : henv.sort_exit = 0) (hhh : henv.hisat2_exit = 0) (hhi : henv.index_exit = 0)
    (hhc : MassiveHisat2.hisat2_command hfiles index_path threads ss = some hcmd)
    (hhr : removeAll henv.remove_fails hfiles = .error ds₂) :
    (MassiveFastp.process_fastq dataset_dir [a, b] true threads denv fs).message
      = .processedPaired dataset_dir
  ∧ (∀ f, f ∈ [(sortPair a b).1, (sortPair a b).2] → denv.remove_fails f = true →
      f ∈ (MassiveFastp.process_fastq dataset_dir [a, b] true threads denv fs).warnings)
  ∧ (MassiveBowtie.run_bowtie_and_process dataset_dir bfiles index_path threads
       true benv).message = .deleteError dataset_dir
  ∧ (MassiveHisat2.run_hisat2_and_process dataset_dir hfiles index_path threads
       true ss henv).message = .deleteError dataset_dir := by
  refine ⟨?_, ?_, ?_, ?_⟩
  · simp [MassiveFastp.process_fastq, MassiveFastp.fastp_command, hfp]
  · intro f hf hrf
    have : (MassiveFastp.process_fastq dataset_dir [a, b] true threads denv fs).warnings
        = (MassiveFastp.fastp_cleanup denv.remove_fails fs
            [(sortPair a b).1, (sortPair a b).2]).2.2 := by
      simp [MassiveFastp.process_fastq, MassiveFastp.fastp_command, hfp]
    rw [this]
    exact fastp_cleanup_warns denv.remove_fails _ fs f hf hrf
  · unfold MassiveBowtie.run_bowtie_and_process
    rw [hbc]
    simp [hbe, hbs, hbi, hbr]
  · unfold MassiveHisat2.run_hisat2_and_process
    rw [hhc]
    simp [hhs, hhh, hhi, hhr]

/-- Witness for C5 amended: a concrete paired trim task and concrete
alignment tasks whose only failure is deleting the first input file. -/
theorem C5_amended_cleanup_failure_by_stage_witness :
    (MassiveFastp.process_fastq (chars "/d/s") [chars "/d/s/a_1.fastq", chars "/d/s/a_2.fastq"]
        true 4 ⟨0, fun p => p == chars "/d/s/a_1.fastq"⟩ [chars "/d/s/a_1.fastq"]).message
      = .processedPaired (chars "/d/s")
  ∧ (∀ f, f ∈ [(sortPair (chars "/d/s/a_1.fastq") (chars "/d/s/a_2.fastq")).1,
        (sortPair (chars "/d/s/a_1.fastq") (chars "/d/s/a_2.fastq")).2] →
      (fun p => p == chars "/d/s/a_1.fastq") f = true →
      f ∈ (MassiveFastp.process_fastq (chars "/d/s")
        [chars "/d/s/a_1.fastq", chars "/d/s/a_2.fastq"]
        true 4 ⟨0, fun p => p == chars "/d/s/a_1.fastq"⟩ [chars "/d/s/a_1.fastq"]).warnings)
  ∧ (MassiveBowtie.run_bowtie_and_process (chars "/d/s")
      [chars "/d/s/a_1.fastq", chars "/d/s/a_2.fastq"] (chars "/idx") 4 true
      ⟨[chars "r1 0 chr1 10"], 0, 0, fun p => p == chars "/d/s/a_1.fastq"⟩).message
      = .deleteError (chars "/d/s")
  ∧ (MassiveHisat2.run_hisat2_and_process (chars "/d/s")
      [chars "/d/s/a_1.fastq", chars "/d/s/a_2.fastq"] (chars "/idx") 4 true none
      ⟨0, 0, 0, fun p => p == chars "/d/s/a_1.fastq"⟩).message
      = .deleteError (chars "/d/s") :=
  C5_amended_cleanup_failure_by_stage (chars "/d/s") (chars "/d/s/a_1.fastq")
    (chars "/d/s/a_2.fastq") (chars "/idx") 4
    ⟨0, fun p => p == chars "/d/s/a_1.fastq"⟩
    [chars "/d/s/a_1.fastq"]
    [chars "/d/s/a_1.fastq", chars "/d/s/a_2.fastq"]
    [chars "/d/s/a_1.fastq", chars "/d/s/a_2.fastq"]
    ((MassiveBowtie.bowtie_command [chars "/d/s/a_1.fastq", chars "/d/s/a_2.fastq"]
        (chars "/idx") 4).getD [])
    ((MassiveHisat2.hisat2_command [chars "/d/s/a_1.fastq", chars "/d/s/a_2.fastq"]
        (chars "/idx") 4 none).getD [])
    [] []
    ⟨[chars "r1 0 chr1 10"], 0, 0, fun p => p == chars "/d/s/a_1.fastq"⟩
    ⟨0, 0, 0, fun p => p == chars "/d/s/a_1.fastq"⟩
    none rfl rfl rfl rfl rfl rfl rfl rfl rfl rfl rfl

/-- C6 counterexample: a single-file bowtie task. The claim says both
aligner variants pass a single-end input via `-U`; the bowtie command
for one file contains no `-U` at all — it passes the file via
`--interleaved`. -/
theorem C6_counterexample_bowtie_single_end_not_U :
    MassiveBowtie.bowtie_command [chars "/data/ds1/a_clean.fastq"] (chars "/idx/ref") 4
      = some [chars "bowtie", chars "-p", natChars 4, chars "-x", chars "/idx/ref",
          chars "--interleaved", chars "/data/ds1/a_clean.fastq", chars "-a", chars "--sam"]
  ∧ chars "-U" ∉ (MassiveBowtie.bowtie_command [chars "/data/ds1/a_clean.fastq"]
      (chars "/idx/ref") 4).getD [] := by
  refine ⟨rfl, ?_⟩
  decide

/-- C6 amended: for a single-file task, hisat2 passes the input via the
`-U` single-end flag, while bowtie passes it via `--interleaved`; paired
tasks use `-1`/`-2` in both aligners. -/
theorem C6_amended_single_end_flags (f a b index_path : PyStr) (threads : Nat)
    (ss : Option PyStr) :
    MassiveHisat2.hisat2_command [f] index_path threads ss
      = some ([chars "hisat2", chars "-x", index_path, chars "-S", chars "-",
          chars "-a", chars "-p", natChars threads] ++
          (match ss with
           | some p => [chars "--known-splicesite-infile", p]
           | none => []) ++
          [chars "-U", f])
  ∧ MassiveBowtie.bowtie_command [f] index_path threads
      = some [chars "bowtie", chars "-p", natChars threads, chars "-x", index_path,
          chars "--interleaved", f, chars "-a", chars "--sam"]
  ∧ MassiveHisat2.hisat2_command [a, b] index_path threads ss
      = some ([chars "hisat2", chars "-x", index_path, chars "-S", chars "-",
          chars "-a", chars "-p", natChars threads] ++
          (match ss with
           | some p => [chars "--known-splicesite-infile", p]
           | none => []) ++
          [chars "-1", pathMin a b, chars "-2", pathMax a b])
  ∧ MassiveBowtie.bowtie_command [a, b] index_path threads
      = some [chars "bowtie", chars "-p", natChars threads, chars "-x", index_path,
          chars "-1", pathMin a b, chars "-2", pathMax a b, chars "-a", chars "--sam"] := by
  refine ⟨rfl, rfl, ?_, ?_⟩
  · simp [MassiveHisat2.hisat2_command, sortPair_eq]
  · simp [MassiveBowtie.bowtie_command, sortPair_eq]

/-- C7: over any walk whose directories are distinct (as `os.walk`
yields them), the discovery mapping has exactly one group for every
walked directory with at least one file matching the suffix predicate,
and no group for a directory with none. -/
theorem C7_discovery_one_group_per_matching_dir (suf : PyStr)
    (walk : List (PyStr × List PyStr)) (d : PyStr)
    (hnd : (walk.map Prod.fst).Nodup) :
    ((collect_dataset_dirs suf walk).map Prod.fst).count d
      = if ∃ e ∈ walk, e.1 = d ∧ (e.2.filter fun f => pyEndsWith f suf) ≠ [] then 1
        else 0 := by
  induction walk with
  | nil => simp [collect_dataset_dirs]
  | cons e rest ih =>
    obtain ⟨root, files⟩ := e
    have hnd' : (rest.map Prod.fst).Nodup := (List.nodup_cons.mp (by simpa using hnd)).2
    have hroot : root ∉ rest.map Prod.fst := (List.nodup_cons.mp (by simpa using hnd)).1
    by_cases hfil : (files.filter fun f => pyEndsWith f suf) = []
    · have hskip : collect_dataset_dirs suf ((root, files) :: rest)
          = collect_dataset_dirs suf rest := by
        simp [collect_dataset_dirs, hfil]
      have hiff : (∃ e ∈ (root, files) :: rest, e.1 = d
            ∧ (e.2.filter fun f => pyEndsWith f suf) ≠ [])
          ↔ (∃ e ∈ rest, e.1 = d ∧ (e.2.filter fun f => pyEndsWith f suf) ≠ []) := by
        constructor
        · rintro ⟨e, he, h1, h2⟩
          rcases List.mem_cons.mp he with rfl | hmem
          · exact absurd hfil h2
          · exact ⟨e, hmem, h1, h2⟩
        · rintro ⟨e, he, h1, h2⟩
          exact ⟨e, List.mem_cons_of_mem _ he, h1, h2⟩
      rw [hskip, ih hnd', if_congr hiff rfl rfl]
    · have hcons : collect_dataset_dirs suf ((root, files) :: rest)
          = (root, (files.filter fun f => pyEndsWith f suf).map (pathJoin root))
            :: collect_dataset_dirs suf rest := by
        simp [collect_dataset_dirs, List.isEmpty_iff, hfil]
      rw [hcons, List.map_cons, List.count_cons, ih hnd']
      by_cases hd : root = d
      · subst hd
        have hnone : ¬ ∃ e ∈ rest, e.1 = root
            ∧ (e.2.filter fun f => pyEndsWith f suf) ≠ [] := by
          rintro ⟨e, he, he1, _⟩
          exact hroot (he1 ▸ List.mem_map_of_mem Prod.fst he)
        have hcond : ∃ e ∈ (root, files) :: rest, e.1 = root
            ∧ (e.2.filter fun f => pyEndsWith f suf) ≠ [] :=
          ⟨(root, files), List.mem_cons_self _ _, rfl, hfil⟩
        rw [if_neg hnone, if_pos hcond]
        simp
      · have hiff : (∃ e ∈ (root, files) :: rest, e.1 = d
              ∧ (e.2.filter fun f => pyEndsWith f suf) ≠ [])
            ↔ (∃ e ∈ rest, e.1 = d ∧ (e.2.filter fun f => pyEndsWith f suf) ≠ []) := by
          constructor
          · rintro ⟨e, he, h1, h2⟩
            rcases List.mem_cons.mp he with rfl | hmem
            · exact absurd h1 hd
            · exact ⟨e, hmem, h1, h2⟩
          · rintro ⟨e, he, h1, h2⟩
            exact ⟨e, List.mem_cons_of_mem _ he, h1, h2⟩
        rw [if_congr hiff rfl rfl]
        have : (root == d) = false := beq_eq_false_iff_ne.mpr hd
        simp [this]

/-- Witness for C7: a three-directory walk — one paired dataset, one
directory with no matching files, one single-file dataset — has exactly
one group for each matching directory and none for the other. -/
theorem C7_discovery_one_group_per_matching_dir_witness :
    (((collect_dataset_dirs (chars ".fastq")
        [(chars "/data/ds1", [chars "a_1.fastq", chars "a_2.fastq"]),
         (chars "/data/empty", [chars "notes.txt"]),
         (chars "/data/ds2", [chars "b.fastq"])]).map Prod.fst).count (chars "/data/ds1")
      = if ∃ e ∈ [(chars "/data/ds1", [chars "a_1.fastq", chars "a_2.fastq"]),
            (chars "/data/empty", [chars "notes.txt"]),
            (chars "/data/ds2", [chars "b.fastq"])], e.1 = chars "/data/ds1"
            ∧ (e.2.filter fun f => pyEndsWith f (chars ".fastq")) ≠ [] then 1 else 0)
  ∧ (((collect_dataset_dirs (chars ".fastq")
        [(chars "/data/ds1", [chars "a_1.fastq", chars "a_2.fastq"]),
         (chars "/data/empty", [chars "notes.txt"]),
         (chars "/data/ds2", [chars "b.fastq"])]).map Prod.fst).count (chars "/data/empty")
      = if ∃ e ∈ [(chars "/data/ds1", [chars "a_1.fastq", chars "a_2.fastq"]),
            (chars "/data/empty", [chars "notes.txt"]),
            (chars "/data/ds2", [chars "b.fastq"])], e.1 = chars "/data/empty"
            ∧ (e.2.filter fun f => pyEndsWith f (chars ".fastq")) ≠ [] then 1 else 0) :=
  ⟨C7_discovery_one_group_per_matching_dir (chars ".fastq")
      [(chars "/data/ds1", [chars "a_1.fastq", chars "a_2.fastq"]),
       (chars "/data/empty", [chars "notes.txt"]),
       (chars "/data/ds2", [chars "b.fastq"])] (chars "/data/ds1") (by decide),
   C7_discovery_one_group_per_matching_dir (chars ".fastq")
      [(chars "/data/ds1", [chars "a_1.fastq", chars "a_2.fastq"]),
       (chars "/data/empty", [chars "notes.txt"]),
       (chars "/data/ds2", [chars "b.fastq"])] (chars "/data/empty") (by decide)⟩

/-! Deletion of originals (C8). -/

theorem fastp_cleanup_fs_subset (rf : PyStr → Bool) :
    ∀ (files fs : List PyStr), (MassiveFastp.fastp_cleanup rf fs files).1 ⊆ fs := by
  intro files
  induction files with
  | nil => intro fs; simp [MassiveFastp.fastp_cleanup]
  | cons g rest ih =>
    intro fs
    cases hg : rf g <;> simp [MassiveFastp.fastp_cleanup, hg]
    · exact fun x hx => List.mem_of_mem_filter (ih _ hx)
    · exact ih fs

theorem fastp_cleanup_removes (rf : PyStr → Bool) (hall : ∀ p, rf p = false) :
    ∀ (files fs : List PyStr) (f : PyStr), f ∈ files →
      f ∉ (MassiveFastp.fastp_cleanup rf fs files).1 := by
  intro files
  induction files with
  | nil => simp
  | cons g rest ih =>
    intro fs f hf
    rcases List.mem_cons.mp hf with rfl | hmem
    · simp [MassiveFastp.fastp_cleanup, hall f]
      intro hm
      have := fastp_cleanup_fs_subset rf rest (MassiveFastp.fsRemove fs f) hm
      simp [MassiveFastp.fsRemove, List.mem_filter] at this
    · simp [MassiveFastp.fastp_cleanup, hall g]
      exact ih _ f hmem

theorem sortPair_mem (a b f : PyStr) (hf : f ∈ [a, b]) :
    f ∈ [(sortPair a b).1, (sortPair a b).2] := by
  unfold sortPair
  split <;> simp at hf ⊢ <;> tauto

/-- C8: for a trim task (single or paired) whose fastp invocation
succeeds, `delete_original=true` removes the original input files from
the simulated filesystem, while `delete_original=false` leaves the
filesystem untouched. -/
theorem C8_delete_original_semantics (dataset_dir a b f₀ : PyStr) (threads : Nat)
    (denv : MassiveFastp.FastpEnv) (fs : List PyStr)
    (hexit : denv.fastp_exit = 0) (hrm : ∀ p, denv.remove_fails p = false) :
    (∀ f ∈ [a, b], f ∉ (MassiveFastp.process_fastq dataset_dir [a, b] true
        threads denv fs).fs)
  ∧ (MassiveFastp.process_fastq dataset_dir [a, b] false threads denv fs).fs = fs
  ∧ f₀ ∉ (MassiveFastp.process_fastq dataset_dir [f₀] true threads denv fs).fs
  ∧ (MassiveFastp.process_fastq dataset_dir [f₀] false threads denv fs).fs = fs := by
  refine ⟨?_, ?_, ?_, ?_⟩
  · intro f hf
    have hfs : (MassiveFastp.process_fastq dataset_dir [a, b] true threads denv fs).fs
        = (MassiveFastp.fastp_cleanup denv.remove_fails fs
            [(sortPair a b).1, (sortPair a b).2]).1 := by
      simp [MassiveFastp.process_fastq, MassiveFastp.fastp_command, hexit]
    rw [hfs]
    exact fastp_cleanup_removes _ hrm _ fs f (sortPair_mem a b f hf)
  · simp [MassiveFastp.process_fastq, MassiveFastp.fastp_command, hexit]
  · have hfs : (MassiveFastp.process_fastq dataset_dir [f₀] true threads denv fs).fs
        = (MassiveFastp.fastp_cleanup denv.remove_fails fs [f₀]).1 := by
      simp [MassiveFastp.process_fastq, MassiveFastp.fastp_command, hexit]
    rw [hfs]
    exact fastp_cleanup_removes _ hrm _ fs f₀ (by simp)
  · simp [MassiveFastp.process_fastq, MassiveFastp.fastp_command, hexit]

/-- Witness for C8: a concrete paired dataset on a three-file filesystem. -/
theorem C8_delete_original_semantics_witness :
    (∀ f ∈ [chars "/d/s/a_1.fastq", chars "/d/s/a_2.fastq"],
      f ∉ (MassiveFastp.process_fastq (chars "/d/s")
        [chars "/d/s/a_1.fastq", chars "/d/s/a_2.fastq"] true 4
        ⟨0, fun _ => false⟩
        [chars "/d/s/a_1.fastq", chars "/d/s/a_2.fastq", chars "/d/s/notes.txt"]).fs)
  ∧ (MassiveFastp.process_fastq (chars "/d/s")
        [chars "/d/s/a_1.fastq", chars "/d/s/a_2.fastq"] false 4
        ⟨0, fun _ => false⟩
        [chars "/d/s/a_1.fastq", chars "/d/s/a_2.fastq", chars "/d/s/notes.txt"]).fs
      = [chars "/d/s/a_1.fastq", chars "/d/s/a_2.fastq", chars "/d/s/notes.txt"]
  ∧ chars "/d/s/b.fastq" ∉ (MassiveFastp.process_fastq (chars "/d/s")
        [chars "/d/s/b.fastq"] true 4 ⟨0, fun _ => false⟩
        [chars "/d/s/a_1.fastq", chars "/d/s/a_2.fastq", chars "/d/s/notes.txt"]).fs
  ∧ (MassiveFastp.process_fastq (chars "/d/s") [chars "/d/s/b.fastq"] false 4
        ⟨0, fun _ => false⟩
        [chars "/d/s/a_1.fastq", chars "/d/s/a_2.fastq", chars "/d/s/notes.txt"]).fs
      = [chars "/d/s/a_1.fastq", chars "/d/s/a_2.fastq", chars "/d/s/notes.txt"] :=
  C8_delete_original_semantics (chars "/d/s") (chars "/d/s/a_1.fastq")
    (chars "/d/s/a_2.fastq") (chars "/d/s/b.fastq") 4 ⟨0, fun _ => false⟩
    [chars "/d/s/a_1.fastq", chars "/d/s/a_2.fastq", chars "/d/s/notes.txt"]
    rfl (fun _ => rfl)

/-! Bounded worker pool (C9). -/

theorem dispatch_invariant {α : Type} (capacity : Nat) (out : α → String)
    (tasks : List α) (s : DispatchState α)
    (h : DispatchReachable capacity out tasks s) :
    s.running.length ≤ capacity
  ∧ s.pending.length + s.running.length + s.done.length = tasks.length := by
  induction h with
  | refl => simp [dispatchInit]
  | tail _ step ih =>
    cases step with
    | start t p r d hlt =>
      simp only [DispatchState.pending, DispatchState.running, DispatchState.done,
        List.length_cons] at ih ⊢
      omega
    | finish t p r₁ r₂ d =>
      simp only [DispatchState.pending, DispatchState.running, DispatchState.done,
        List.length_append, List.length_cons] at ih ⊢
      omega

/-- C9: in any state the worker pool can reach, at most `capacity` tasks
are running at once, and once nothing is pending or running the
collected outcomes number exactly the submitted tasks. The pool bound
itself is `ThreadPoolExecutor(max_workers=capacity)` — Python standard
library, modelled from the spec as the step relation `DispatchStep`. -/
theorem C9_bounded_concurrency_and_complete_summary {α : Type} (capacity : Nat)
    (out : α → String) (tasks : List α) (s : DispatchState α)
    (h : DispatchReachable capacity out tasks s) :
    s.running.length ≤ capacity
  ∧ (s.pending = [] → s.running = [] → s.done.length = tasks.length) := by
  obtain ⟨h1, h2⟩ := dispatch_invariant capacity out tasks s h
  refine ⟨h1, fun hp hr => ?_⟩
  rw [hp, hr] at h2
  simpa using h2

/-- Witness for C9: a two-task batch on a one-worker pool, run to
completion (start/finish each task in turn). -/
theorem C9_bounded_concurrency_and_complete_summary_witness :
    (⟨[], [], [toString 2, toString 1]⟩ : DispatchState Nat).running.length ≤ 1
  ∧ ((⟨[], [], [toString 2, toString 1]⟩ : DispatchState Nat).pending = [] →
      (⟨[], [], [toString 2, toString 1]⟩ : DispatchState Nat).running = [] →
      (⟨[], [], [toString 2, toString 1]⟩ : DispatchState Nat).done.length
        = ([1, 2] : List Nat).length) :=
  C9_bounded_concurrency_and_complete_summary 1 toString [1, 2]
    ⟨[], [], [toString 2, toString 1]⟩
    (Relation.ReflTransGen.tail
      (Relation.ReflTransGen.tail
        (Relation.ReflTransGen.tail
          (Relation.ReflTransGen.tail Relation.ReflTransGen.refl
            (DispatchStep.start 1 [2] [] [] (by decide)))
          (DispatchStep.finish 1 [2] [] [] []))
        (DispatchStep.start 2 [] [] [toString 1] (by decide)))
      (DispatchStep.finish 2 [] [] [] [toString 1]))

/-!
Re-running the trim stage (C10). `".fastq"` has no nontrivial
self-overlap and shares no prefix with `"_clean"`, so in any name ending
in `"_clean.fastq"` the scan of `str.replace` rewrites the final
`".fastq"` occurrence in place, producing a `"_clean_clean.fastq"`
suffix. The `crossN` lemmas rule out a match of `".fastq"` that starts
within the last `N < 6` characters before the trailing
`"_clean.fastq"`.
-/

theorem cross1 (a : Char) :
    (chars ".fastq").isPrefixOf (a :: chars "_clean.fastq") = false := by
  show (('.' == a) && (chars "fastq").isPrefixOf (chars "_clean.fastq")) = false
  rw [show (chars "fastq").isPrefixOf (chars "_clean.fastq") = false from rfl,
    Bool.and_false]

theorem cross2 (a b : Char) :
    (chars ".fastq").isPrefixOf (a :: b :: chars "_clean.fastq") = false := by
  show (('.' == a) && (('f' == b) &&
    (chars "astq").isPrefixOf (chars "_clean.fastq"))) = false
  rw [show (chars "astq").isPrefixOf (chars "_clean.fastq") = false from rfl,
    Bool.and_false, Bool.and_false]

theorem cross3 (a b c : Char) :
    (chars ".fastq").isPrefixOf (a :: b :: c :: chars "_clean.fastq") = false := by
  show (('.' == a) && (('f' == b) && (('a' == c) &&
    (chars "stq").isPrefixOf (chars "_clean.fastq")))) = false
  rw [show (chars "stq").isPrefixOf (chars "_clean.fastq") = false from rfl,
    Bool.and_false, Bool.and_false, Bool.and_false]

theorem cross4 (a b c d : Char) :
    (chars ".fastq").isPrefixOf (a :: b :: c :: d :: chars "_clean.fastq") = false := by
  show (('.' == a) && (('f' == b) && (('a' == c) && (('s' == d) &&
    (chars "tq").isPrefixOf (chars "_clean.fastq"))))) = false
  rw [show (chars "tq").isPrefixOf (chars "_clean.fastq") = false from rfl,
    Bool.and_false, Bool.and_false, Bool.and_false, Bool.and_false]

theorem cross5 (a b c d e : Char) :
    (chars ".fastq").isPrefixOf (a :: b :: c :: d :: e :: chars "_clean.fastq") = false := by
  show (('.' == a) && (('f' == b) && (('a' == c) && (('s' == d) && (('t' == e) &&
    (chars "q").isPrefixOf (chars "_clean.fastq")))))) = false
  rw [show (chars "q").isPrefixOf (chars "_clean.fastq") = false from rfl,
    Bool.and_false, Bool.and_false, Bool.and_false, Bool.and_false, Bool.and_false]

theorem pyReplaceFuel_fuel_irrel (pat rep : PyStr) :
    ∀ (f1 f2 : Nat) (s : PyStr), s.length ≤ f1 → s.length ≤ f2 →
      pyReplaceFuel pat rep f1 s = pyReplaceFuel pat rep f2 s := by
  intro f1
  induction f1 with
  | zero =>
    intro f2 s h1 _
    have hs : s = [] := List.length_eq_zero.mp (Nat.le_zero.mp h1)
    subst hs
    simp [pyReplaceFuel]
  | succ n ihf =>
    intro f2 s h1 h2
    rcases s with _ | ⟨c, rest⟩
    · simp [pyReplaceFuel]
    · rcases f2 with _ | m
      · simp at h2
      · simp only [pyReplaceFuel]
        by_cases hc : 0 < pat.length ∧ pat.isPrefixOf (c :: rest) = true
        · rw [if_pos hc, if_pos hc]
          congr 1
          apply ihf
          · simp only [List.length_drop, List.length_cons]
            simp only [List.length_cons] at h1
            omega
          · simp only [List.length_drop, List.length_cons]
            simp only [List.length_cons] at h2
            omega
        · rw [if_neg hc, if_neg hc]
          congr 1
          apply ihf
          · simp only [List.length_cons] at h1
            omega
          · simp only [List.length_cons] at h2
            omega

theorem replace_keeps_clean_suffix (n : Nat) :
    ∀ u : List Char, u.length ≤ n →
      chars "_clean_clean.fastq" <:+
        pyReplace (u ++ chars "_clean.fastq") (chars ".fastq") (chars "_clean.fastq") := by
  induction n with
  | zero =>
    intro u hu
    have hu0 : u = [] := List.length_eq_zero.mp (Nat.le_zero.mp hu)
    subst hu0
    rw [List.nil_append,
      show pyReplace (chars "_clean.fastq") (chars ".fastq") (chars "_clean.fastq")
        = chars "_clean_clean.fastq" by decide]
  | succ n ih =>
    intro u hu
    rcases u with _ | ⟨c, u'⟩
    · rw [List.nil_append,
        show pyReplace (chars "_clean.fastq") (chars ".fastq") (chars "_clean.fastq")
          = chars "_clean_clean.fastq" by decide]
    · simp only [pyReplace, List.cons_append, List.length_cons]
      simp only [pyReplaceFuel]
      by_cases hpre :
          (chars ".fastq").isPrefixOf (c :: (u' ++ chars "_clean.fastq")) = true
      · rcases Nat.lt_or_ge u'.length 5 with hsmall | hbig
        · exfalso
          rcases u' with _ | ⟨a1, _ | ⟨a2, _ | ⟨a3, _ | ⟨a4, rest⟩⟩⟩⟩
          · rw [List.nil_append, cross1 c] at hpre
            cases hpre
          · rw [List.cons_append, List.nil_append, cross2 c a1] at hpre
            cases hpre
          · rw [List.cons_append, List.cons_append, List.nil_append,
              cross3 c a1 a2] at hpre
            cases hpre
          · rw [List.cons_append, List.cons_append, List.cons_append,
              List.nil_append, cross4 c a1 a2 a3] at hpre
            cases hpre
          · have hrest : rest = [] := by
              simp only [List.length_cons] at hsmall
              exact List.length_eq_zero.mp (by omega)
            subst hrest
            rw [List.cons_append, List.cons_append, List.cons_append,
              List.cons_append, List.nil_append, cross5 c a1 a2 a3 a4] at hpre
            cases hpre
        · rw [if_pos ⟨by decide, hpre⟩]
          have hdrop : (c :: (u' ++ chars "_clean.fastq")).drop ((chars ".fastq").length)
              = (c :: u').drop 6 ++ chars "_clean.fastq" := by
            rw [show (chars ".fastq").length = 6 from rfl, ← List.cons_append,
              List.drop_append_eq_append_drop]
            have hz : 6 - (c :: u').length = 0 := by
              simp only [List.length_cons]
              omega
            rw [hz, List.drop_zero]
          have hirr : pyReplaceFuel (chars ".fastq") (chars "_clean.fastq")
                ((u' ++ chars "_clean.fastq").length)
                ((c :: u').drop 6 ++ chars "_clean.fastq")
              = pyReplace ((c :: u').drop 6 ++ chars "_clean.fastq")
                  (chars ".fastq") (chars "_clean.fastq") := by
            apply pyReplaceFuel_fuel_irrel
            · simp only [List.length_append, List.length_drop, List.length_cons]
              omega
            · exact le_refl _
          rw [hdrop, hirr]
          have hrec := ih ((c :: u').drop 6) (by
            simp only [List.length_drop, List.length_cons]
            simp only [List.length_cons] at hu
            omega)
          exact hrec.trans (List.suffix_append (chars "_clean.fastq") _)
      · rw [if_neg (fun hc => hpre hc.2)]
        have hu' : u'.length ≤ n := by
          simp only [List.length_cons] at hu
          omega
        exact (ih u' hu').trans (List.suffix_cons c _)

theorem pyBasename_append_noslash (u t : PyStr) (ht : ∀ c ∈ t, c ≠ '/') :
    pyBasename (u ++ t) = pyBasename u ++ t := by
  unfold pyBasename
  rw [List.reverse_append]
  have htk : t.reverse.takeWhile (fun c => c ≠ '/') = t.reverse := by
    rw [List.takeWhile_eq_self_iff]
    intro x hx
    exact decide_eq_true (ht x (List.mem_reverse.mp hx))
  rw [List.takeWhile_append, htk, if_pos rfl, List.reverse_append, List.reverse_reverse]

/-- C10: a file named `…_clean.fastq` still matches the trim stage's own
discovery predicate (suffix `.fastq`), so a second trim run re-submits
the first run's outputs as raw inputs; the output name computed for such
an input ends in `_clean_clean.fastq`, and with the delete flag set the
previously cleaned input file is removed from the filesystem. -/
theorem C10_second_trim_run_recleans (u dataset_dir : PyStr) (threads : Nat)
    (denv : MassiveFastp.FastpEnv) (fs : List PyStr)
    (hexit : denv.fastp_exit = 0) (hrm : ∀ p, denv.remove_fails p = false) :
    pyEndsWith (u ++ chars "_clean.fastq") (chars ".fastq") = true
  ∧ collect_dataset_dirs (chars ".fastq") [(dataset_dir, [u ++ chars "_clean.fastq"])]
      = [(dataset_dir, [pathJoin dataset_dir (u ++ chars "_clean.fastq")])]
  ∧ (∀ o ∈ (MassiveFastp.process_fastq dataset_dir [u ++ chars "_clean.fastq"] true
        threads denv fs).outputs,
      pyEndsWith o (chars "_clean_clean.fastq") = true)
  ∧ (u ++ chars "_clean.fastq")
      ∉ (MassiveFastp.process_fastq dataset_dir [u ++ chars "_clean.fastq"] true
        threads denv fs).fs := by
  have h1 : pyEndsWith (u ++ chars "_clean.fastq") (chars ".fastq") = true := by
    unfold pyEndsWith
    rw [List.isSuffixOf_iff_suffix]
    exact (show chars ".fastq" <:+ chars "_clean.fastq" by decide).trans
      (List.suffix_append u _)
  refine ⟨h1, ?_, ?_, ?_⟩
  · simp [collect_dataset_dirs, h1]
  · intro o ho
    have houts : (MassiveFastp.process_fastq dataset_dir [u ++ chars "_clean.fastq"] true
          threads denv fs).outputs
        = [MassiveFastp.clean_output dataset_dir (u ++ chars "_clean.fastq")] := by
      simp [MassiveFastp.process_fastq, MassiveFastp.fastp_command, hexit]
    rw [houts] at ho
    simp only [List.mem_singleton] at ho
    subst ho
    unfold MassiveFastp.clean_output pyEndsWith pathJoin
    rw [List.isSuffixOf_iff_suffix]
    have hb : pyBasename (u ++ chars "_clean.fastq")
        = pyBasename u ++ chars "_clean.fastq" :=
      pyBasename_append_noslash u _ (by decide)
    rw [hb]
    have hs := replace_keeps_clean_suffix (pyBasename u).length (pyBasename u) (le_refl _)
    have hjoin : dataset_dir ++ '/' ::
          pyReplace (pyBasename u ++ chars "_clean.fastq") (chars ".fastq")
            (chars "_clean.fastq")
        = (dataset_dir ++ ['/']) ++
          pyReplace (pyBasename u ++ chars "_clean.fastq") (chars ".fastq")
            (chars "_clean.fastq") := by
      simp
    rw [hjoin]
    exact hs.trans (List.suffix_append _ _)
  · have hfs : (MassiveFastp.process_fastq dataset_dir [u ++ chars "_clean.fastq"] true
          threads denv fs).fs
        = (MassiveFastp.fastp_cleanup denv.remove_fails fs
            [u ++ chars "_clean.fastq"]).1 := by
      simp [MassiveFastp.process_fastq, MassiveFastp.fastp_command, hexit]
    rw [hfs]
    exact fastp_cleanup_removes _ hrm _ fs _ (by simp)

/-- Witness for C10: the concrete file `/data/ds1/a_1_clean.fastq`. -/
theorem C10_second_trim_run_recleans_witness :
    pyEndsWith (chars "/data/ds1/a_1" ++ chars "_clean.fastq") (chars ".fastq") = true
  ∧ collect_dataset_dirs (chars ".fastq")
      [(chars "/data/ds1", [chars "/data/ds1/a_1" ++ chars "_clean.fastq"])]
      = [(chars "/data/ds1", [pathJoin (chars "/data/ds1")
          (chars "/data/ds1/a_1" ++ chars "_clean.fastq")])]
  ∧ (∀ o ∈ (MassiveFastp.process_fastq (chars "/data/ds1")
        [chars "/data/ds1/a_1" ++ chars "_clean.fastq"] true 4
        ⟨0, fun _ => false⟩
        [chars "/data/ds1/a_1" ++ chars "_clean.fastq"]).outputs,
      pyEndsWith o (chars "_clean_clean.fastq") = true)
  ∧ (chars "/data/ds1/a_1" ++ chars "_clean.fastq")
      ∉ (MassiveFastp.process_fastq (chars "/data/ds1")
        [chars "/data/ds1/a_1" ++ chars "_clean.fastq"] true 4
        ⟨0, fun _ => false⟩
        [chars "/data/ds1/a_1" ++ chars "_clean.fastq"]).fs :=
  C10_second_trim_run_recleans (chars "/data/ds1/a_1") (chars "/data/ds1") 4
    ⟨0, fun _ => false⟩ [chars "/data/ds1/a_1" ++ chars "_clean.fastq"]
    rfl (fun _ => rfl)
